import Mathlib

/-!
Shallow embedding of the free-fly camera in
src/includes/learnopengl/camera.h, under ideal real arithmetic
(glm float vectors are modelled as triples of real numbers).
-/

noncomputable section

/-- A 3-component vector, modelling glm::vec3. -/
@[ext]
structure Vec3 where
  x : ℝ
  y : ℝ
  z : ℝ

/-- The zero vector. -/
def Vec3.zero : Vec3 := ⟨0, 0, 0⟩

/-- Componentwise addition, modelling glm vector +. -/
def Vec3.add (u v : Vec3) : Vec3 := ⟨u.x + v.x, u.y + v.y, u.z + v.z⟩

/-- Componentwise subtraction, modelling glm vector -. -/
def Vec3.sub (u v : Vec3) : Vec3 := ⟨u.x - v.x, u.y - v.y, u.z - v.z⟩

/-- Scalar multiplication, modelling glm vector * scalar. -/
def Vec3.smul (a : ℝ) (v : Vec3) : Vec3 := ⟨a * v.x, a * v.y, a * v.z⟩

/-- Dot product, modelling glm::dot. -/
def Vec3.dot (u v : Vec3) : ℝ := u.x * v.x + u.y * v.y + u.z * v.z

/-- Cross product, modelling glm::cross. -/
def Vec3.cross (u v : Vec3) : Vec3 :=
  ⟨u.y * v.z - u.z * v.y, u.z * v.x - u.x * v.z, u.x * v.y - u.y * v.x⟩

/-- Euclidean length, modelling glm::length. -/
def Vec3.norm (v : Vec3) : ℝ := Real.sqrt (Vec3.dot v v)

/-- Normalization v / length(v), modelling glm::normalize. -/
def Vec3.normalize (v : Vec3) : Vec3 := Vec3.smul (1 / Vec3.norm v) v

/-- Degrees to radians, modelling glm::radians. -/
def radians (degrees : ℝ) : ℝ := degrees * (Real.pi / 180)

/-- Default camera value YAW (camera.h line 17). -/
def YAW : ℝ := -90

/-- Default camera value PITCH (camera.h line 18). -/
def PITCH : ℝ := 0

/-- Default camera value SPEED (camera.h line 19). -/
def SPEED : ℝ := 2.5

/-- Default camera value SENSITIVITY (camera.h line 20). -/
def SENSITIVITY : ℝ := 0.1

/-- Default camera value ZOOM (camera.h line 21). -/
def ZOOM : ℝ := 45

/-- Movement options, modelling enum Camera_Movement. -/
inductive Camera_Movement where
  | FORWARD
  | BACKWARD
  | LEFT
  | RIGHT
deriving DecidableEq

/-- Euler angles, modelling struct _EulerAngles. -/
structure _EulerAngles where
  Yaw : ℝ
  Pitch : ℝ

/-- The macro _EulerAnglesRotate: the raw (pre-normalization) front
vector from the Euler angles. -/
def _EulerAnglesRotate (e : _EulerAngles) : Vec3 :=
  ⟨Real.cos (radians e.Yaw) * Real.cos (radians e.Pitch),
   Real.sin (radians e.Pitch),
   Real.sin (radians e.Yaw) * Real.cos (radians e.Pitch)⟩

/-- Camera state, modelling struct _Camera (the class Camera adds only
methods on top of these fields). -/
structure _Camera where
  Position : Vec3
  Front : Vec3
  Up : Vec3
  Right : Vec3
  WorldUp : Vec3
  EulerAngles : _EulerAngles
  MovementSpeed : ℝ
  MouseSensitivity : ℝ
  Zoom : ℝ

/-- The class Camera is _Camera plus methods; it has the same fields. -/
abbrev Camera := _Camera

/-- Camera::updateCameraVectors: recompute Front, Right, Up from the
current Euler angles and WorldUp. -/
def updateCameraVectors (c : Camera) : Camera :=
  let newFront := Vec3.normalize (_EulerAnglesRotate c.EulerAngles)
  let newRight := Vec3.normalize (Vec3.cross newFront c.WorldUp)
  let newUp := Vec3.normalize (Vec3.cross newRight newFront)
  { c with Front := newFront, Right := newRight, Up := newUp }

/-- Constructor with vectors (camera.h lines 68-80).  In the source,
Up and Right are uninitialized until updateCameraVectors overwrites
them; here they start as zero. -/
def Camera.mkVec (position up : Vec3) (yaw pitch : ℝ) : Camera :=
  updateCameraVectors
    { Position := position
      Front := ⟨0, 0, -1⟩
      Up := Vec3.zero
      Right := Vec3.zero
      WorldUp := up
      EulerAngles := ⟨yaw, pitch⟩
      MovementSpeed := SPEED
      MouseSensitivity := SENSITIVITY
      Zoom := ZOOM }

/-- Constructor with scalar values (camera.h lines 82-94). -/
def Camera.mkScalar (posX posY posZ upX upY upZ yaw pitch : ℝ) : Camera :=
  updateCameraVectors
    { Position := ⟨posX, posY, posZ⟩
      Front := ⟨0, 0, -1⟩
      Up := Vec3.zero
      Right := Vec3.zero
      WorldUp := ⟨upX, upY, upZ⟩
      EulerAngles := ⟨yaw, pitch⟩
      MovementSpeed := SPEED
      MouseSensitivity := SENSITIVITY
      Zoom := ZOOM }

/-- The camera built with all default arguments. -/
def defaultCamera : Camera := Camera.mkVec ⟨0, 0, 0⟩ ⟨0, 1, 0⟩ YAW PITCH

/-- Camera::ProcessKeyboard: translate Position along Front or Right.
The source tests the four enum cases in sequence, each adding or
subtracting Front * velocity or Right * velocity. -/
def ProcessKeyboard (c : Camera) (direction : Camera_Movement) (deltaTime : ℝ) : Camera :=
  let velocity := c.MovementSpeed * deltaTime
  let c1 := if direction = Camera_Movement.FORWARD then
    { c with Position := Vec3.add c.Position (Vec3.smul velocity c.Front) } else c
  let c2 := if direction = Camera_Movement.BACKWARD then
    { c1 with Position := Vec3.sub c1.Position (Vec3.smul velocity c1.Front) } else c1
  let c3 := if direction = Camera_Movement.LEFT then
    { c2 with Position := Vec3.sub c2.Position (Vec3.smul velocity c2.Right) } else c2
  if direction = Camera_Movement.RIGHT then
    { c3 with Position := Vec3.add c3.Position (Vec3.smul velocity c3.Right) } else c3

/-- Camera::ProcessMouseMovement: scale the offsets by the mouse
sensitivity, add them to yaw and pitch, optionally clamp pitch to
[-89, 89] with two sequential tests, then recompute the basis. -/
def ProcessMouseMovement (c : Camera) (xoffset yoffset : ℝ) (constrainPitch : Bool) : Camera :=
  let xoffset2 := xoffset * c.MouseSensitivity
  let yoffset2 := yoffset * c.MouseSensitivity
  let yaw2 := c.EulerAngles.Yaw + xoffset2
  let pitch2 := c.EulerAngles.Pitch + yoffset2
  let pitch3 :=
    if constrainPitch then
      let pitchHi := if pitch2 > 89 then (89 : ℝ) else pitch2
      if pitchHi < -89 then (-89 : ℝ) else pitchHi
    else pitch2
  updateCameraVectors { c with EulerAngles := ⟨yaw2, pitch3⟩ }

/-- Camera::ProcessMouseScroll: subtract yoffset from Zoom, then clamp
to [1, 45] with two sequential tests. -/
def ProcessMouseScroll (c : Camera) (yoffset : ℝ) : Camera :=
  let zoom2 := c.Zoom - yoffset
  let zoom3 := if zoom2 < 1 then (1 : ℝ) else zoom2
  let zoom4 := if zoom3 > 45 then (45 : ℝ) else zoom3
  { c with Zoom := zoom4 }

/-- Camera states reachable through either constructor followed by any
sequence of the three input-processing methods. -/
inductive Reachable : Camera → Prop where
  | ctorVec : ∀ (p u : Vec3) (yaw pitch : ℝ), Reachable (Camera.mkVec p u yaw pitch)
  | ctorScalar : ∀ (px py pz ux uy uz yaw pitch : ℝ),
      Reachable (Camera.mkScalar px py pz ux uy uz yaw pitch)
  | keyboard : ∀ (c : Camera) (d : Camera_Movement) (dt : ℝ),
      Reachable c → Reachable (ProcessKeyboard c d dt)
  | mouse : ∀ (c : Camera) (xo yo : ℝ) (b : Bool),
      Reachable c → Reachable (ProcessMouseMovement c xo yo b)
  | scroll : ∀ (c : Camera) (yo : ℝ),
      Reachable c → Reachable (ProcessMouseScroll c yo)

/-- The basis fields hold exactly the values updateCameraVectors derives
from the current yaw, pitch and WorldUp: nothing is stale. -/
def basisDerived (c : Camera) : Prop :=
  c.Front = Vec3.normalize (_EulerAnglesRotate c.EulerAngles) ∧
  c.Right = Vec3.normalize (Vec3.cross c.Front c.WorldUp) ∧
  c.Up = Vec3.normalize (Vec3.cross c.Right c.Front)

/-- Front, Right, Up are mutually orthogonal unit vectors. -/
def isOrthonormalBasis (c : Camera) : Prop :=
  Vec3.dot c.Front c.Front = 1 ∧
  Vec3.dot c.Right c.Right = 1 ∧
  Vec3.dot c.Up c.Up = 1 ∧
  Vec3.dot c.Front c.Right = 0 ∧
  Vec3.dot c.Front c.Up = 0 ∧
  Vec3.dot c.Right c.Up = 0

/-! Vector algebra lemmas. -/

lemma Vec3.dot_comm (u v : Vec3) : Vec3.dot u v = Vec3.dot v u := by
  simp only [Vec3.dot]; ring

lemma Vec3.dot_smul_left (a : ℝ) (u v : Vec3) :
    Vec3.dot (Vec3.smul a u) v = a * Vec3.dot u v := by
  simp only [Vec3.dot, Vec3.smul]; ring

lemma Vec3.dot_smul_right (a : ℝ) (u v : Vec3) :
    Vec3.dot u (Vec3.smul a v) = a * Vec3.dot u v := by
  simp only [Vec3.dot, Vec3.smul]; ring

lemma Vec3.dot_cross_left (u v : Vec3) : Vec3.dot u (Vec3.cross u v) = 0 := by
  simp only [Vec3.dot, Vec3.cross]; ring

lemma Vec3.dot_cross_right (u v : Vec3) : Vec3.dot v (Vec3.cross u v) = 0 := by
  simp only [Vec3.dot, Vec3.cross]; ring

lemma Vec3.dot_cross_self (u v : Vec3) :
    Vec3.dot (Vec3.cross u v) (Vec3.cross u v) =
      Vec3.dot u u * Vec3.dot v v - Vec3.dot u v * Vec3.dot u v := by
  simp only [Vec3.dot, Vec3.cross]; ring

lemma Vec3.dot_self_nonneg (v : Vec3) : 0 ≤ Vec3.dot v v := by
  simp only [Vec3.dot]
  nlinarith [mul_self_nonneg v.x, mul_self_nonneg v.y, mul_self_nonneg v.z]

lemma Vec3.eq_zero_of_dot_self (v : Vec3) (h : Vec3.dot v v = 0) : v = Vec3.zero := by
  simp only [Vec3.dot] at h
  have hx : v.x * v.x = 0 := by
    nlinarith [mul_self_nonneg v.x, mul_self_nonneg v.y, mul_self_nonneg v.z]
  have hy : v.y * v.y = 0 := by
    nlinarith [mul_self_nonneg v.x, mul_self_nonneg v.y, mul_self_nonneg v.z]
  have hz : v.z * v.z = 0 := by
    nlinarith [mul_self_nonneg v.x, mul_self_nonneg v.y, mul_self_nonneg v.z]
  ext <;> simp [Vec3.zero, mul_self_eq_zero.mp hx, mul_self_eq_zero.mp hy,
    mul_self_eq_zero.mp hz]

lemma Vec3.dot_self_pos (v : Vec3) (h : v ≠ Vec3.zero) : 0 < Vec3.dot v v := by
  rcases lt_or_eq_of_le (Vec3.dot_self_nonneg v) with hlt | heq
  · exact hlt
  · exact absurd (Vec3.eq_zero_of_dot_self v heq.symm) h

lemma Vec3.normalize_of_dot_one (v : Vec3) (h : Vec3.dot v v = 1) :
    Vec3.normalize v = v := by
  simp only [Vec3.normalize, Vec3.norm, h, Real.sqrt_one, div_one, Vec3.smul, one_mul]

lemma Vec3.normalize_zero : Vec3.normalize Vec3.zero = Vec3.zero := by
  simp [Vec3.normalize, Vec3.norm, Vec3.dot, Vec3.zero, Vec3.smul]

lemma Vec3.dot_normalize_self (v : Vec3) (h : v ≠ Vec3.zero) :
    Vec3.dot (Vec3.normalize v) (Vec3.normalize v) = 1 := by
  have hd := Vec3.dot_self_pos v h
  have hs : Real.sqrt (Vec3.dot v v) * Real.sqrt (Vec3.dot v v) = Vec3.dot v v :=
    Real.mul_self_sqrt hd.le
  have hs0 : Real.sqrt (Vec3.dot v v) ≠ 0 := by
    have := Real.sqrt_pos.mpr hd
    linarith
  rw [Vec3.normalize, Vec3.dot_smul_left, Vec3.dot_smul_right, Vec3.norm]
  field_simp

/-! Trigonometric evaluations at the angles used by the claims. -/

lemma radians_zero : radians 0 = 0 := by
  simp [radians]

lemma radians_neg_ninety : radians (-90) = -(Real.pi / 2) := by
  simp only [radians]; ring

lemma radians_ninety : radians 90 = Real.pi / 2 := by
  simp only [radians]; ring

lemma cos_radians_zero : Real.cos (radians 0) = 1 := by
  rw [radians_zero, Real.cos_zero]

lemma sin_radians_zero : Real.sin (radians 0) = 0 := by
  rw [radians_zero, Real.sin_zero]

lemma cos_radians_neg_ninety : Real.cos (radians (-90)) = 0 := by
  rw [radians_neg_ninety, Real.cos_neg, Real.cos_pi_div_two]

lemma sin_radians_neg_ninety : Real.sin (radians (-90)) = -1 := by
  rw [radians_neg_ninety, Real.sin_neg, Real.sin_pi_div_two]

lemma cos_radians_ninety : Real.cos (radians 90) = 0 := by
  rw [radians_ninety, Real.cos_pi_div_two]

lemma sin_radians_ninety : Real.sin (radians 90) = 1 := by
  rw [radians_ninety, Real.sin_pi_div_two]

/-- The raw front vector is always a unit vector: its squared length is
cos²(pitch)·(cos²(yaw)+sin²(yaw)) + sin²(pitch) = 1. -/
lemma eulerFront_dot_self (e : _EulerAngles) :
    Vec3.dot (_EulerAnglesRotate e) (_EulerAnglesRotate e) = 1 := by
  simp only [_EulerAnglesRotate, Vec3.dot]
  have h1 := Real.sin_sq_add_cos_sq (radians e.Yaw)
  have h2 := Real.sin_sq_add_cos_sq (radians e.Pitch)
  nlinarith [h1, h2, sq_nonneg (Real.cos (radians e.Pitch))]

/-! Camera-level helper lemmas. -/

lemma updateCameraVectors_front (c : Camera) :
    (updateCameraVectors c).Front = Vec3.normalize (_EulerAnglesRotate c.EulerAngles) := rfl

lemma updateCameraVectors_basisDerived (c : Camera) :
    basisDerived (updateCameraVectors c) :=
  ⟨rfl, rfl, rfl⟩

lemma ProcessKeyboard_basisFields (c : Camera) (d : Camera_Movement) (dt : ℝ) :
    (ProcessKeyboard c d dt).Front = c.Front ∧
    (ProcessKeyboard c d dt).Right = c.Right ∧
    (ProcessKeyboard c d dt).Up = c.Up ∧
    (ProcessKeyboard c d dt).WorldUp = c.WorldUp ∧
    (ProcessKeyboard c d dt).EulerAngles = c.EulerAngles := by
  cases d <;> exact ⟨rfl, rfl, rfl, rfl, rfl⟩

lemma reachable_basisDerived (c : Camera) (h : Reachable c) : basisDerived c := by
  induction h with
  | ctorVec p u yaw pitch => exact updateCameraVectors_basisDerived _
  | ctorScalar px py pz ux uy uz yaw pitch => exact updateCameraVectors_basisDerived _
  | keyboard c d dt hr ih =>
      obtain ⟨hF, hR, hU, hW, hE⟩ := ProcessKeyboard_basisFields c d dt
      refine ⟨?_, ?_, ?_⟩
      · rw [hF, hE]; exact ih.1
      · rw [hR, hF, hW]; exact ih.2.1
      · rw [hU, hR, hF]; exact ih.2.2
  | mouse c xo yo b hr ih => exact updateCameraVectors_basisDerived _
  | scroll c yo hr ih => exact ih

lemma basisDerived_orthonormal (c : Camera) (hb : basisDerived c)
    (hc : Vec3.cross c.Front c.WorldUp ≠ Vec3.zero) :
    isOrthonormalBasis c := by
  obtain ⟨hF, hR, hU⟩ := hb
  have hFr : c.Front = _EulerAnglesRotate c.EulerAngles := by
    rw [hF, Vec3.normalize_of_dot_one _ (eulerFront_dot_self _)]
  have hFd : Vec3.dot c.Front c.Front = 1 := by
    rw [hFr]; exact eulerFront_dot_self _
  have hRd : Vec3.dot c.Right c.Right = 1 := by
    rw [hR]; exact Vec3.dot_normalize_self _ hc
  have hFR : Vec3.dot c.Front c.Right = 0 := by
    rw [hR, Vec3.normalize, Vec3.dot_smul_right, Vec3.dot_cross_left, mul_zero]
  have hRF : Vec3.dot c.Right c.Front = 0 := by
    rw [Vec3.dot_comm]; exact hFR
  have hWd : Vec3.dot (Vec3.cross c.Right c.Front) (Vec3.cross c.Right c.Front) = 1 := by
    rw [Vec3.dot_cross_self, hRd, hFd, hRF]; ring
  have hUeq : c.Up = Vec3.cross c.Right c.Front := by
    rw [hU, Vec3.normalize_of_dot_one _ hWd]
  have hUd : Vec3.dot c.Up c.Up = 1 := by rw [hUeq]; exact hWd
  have hFU : Vec3.dot c.Front c.Up = 0 := by
    rw [hUeq]; exact Vec3.dot_cross_right _ _
  have hRU : Vec3.dot c.Right c.Up = 0 := by
    rw [hUeq]; exact Vec3.dot_cross_left _ _
  exact ⟨hFd, hRd, hUd, hFR, hFU, hRU⟩

/-! Concrete evaluations at the default construction and at the
degenerate pitch-90 construction. -/

lemma mkVec_front (p u : Vec3) (yaw pitch : ℝ) :
    (Camera.mkVec p u yaw pitch).Front
      = Vec3.normalize (_EulerAnglesRotate ⟨yaw, pitch⟩) := rfl

lemma mkVec_right (p u : Vec3) (yaw pitch : ℝ) :
    (Camera.mkVec p u yaw pitch).Right
      = Vec3.normalize (Vec3.cross (Camera.mkVec p u yaw pitch).Front u) := rfl

lemma euler_default_raw : _EulerAnglesRotate ⟨YAW, PITCH⟩ = ⟨0, 0, -1⟩ := by
  simp only [_EulerAnglesRotate, YAW, PITCH, cos_radians_neg_ninety,
    sin_radians_neg_ninety, cos_radians_zero, sin_radians_zero]
  norm_num

lemma defaultCamera_front : defaultCamera.Front = ⟨0, 0, -1⟩ := by
  rw [defaultCamera, mkVec_front, euler_default_raw, Vec3.normalize_of_dot_one]
  simp [Vec3.dot]

lemma defaultCamera_worldUp : defaultCamera.WorldUp = ⟨0, 1, 0⟩ := rfl

lemma defaultCamera_cross : Vec3.cross defaultCamera.Front defaultCamera.WorldUp = ⟨1, 0, 0⟩ := by
  rw [defaultCamera_front, defaultCamera_worldUp]
  simp [Vec3.cross]

lemma euler_pitchUp_raw : _EulerAnglesRotate ⟨YAW, (90 : ℝ)⟩ = ⟨0, 1, 0⟩ := by
  simp only [_EulerAnglesRotate, YAW, cos_radians_neg_ninety,
    sin_radians_neg_ninety, cos_radians_ninety, sin_radians_ninety]
  norm_num

lemma pitchUp_front :
    (Camera.mkVec ⟨0, 0, 0⟩ ⟨0, 1, 0⟩ YAW 90).Front = ⟨0, 1, 0⟩ := by
  rw [mkVec_front, euler_pitchUp_raw, Vec3.normalize_of_dot_one]
  simp [Vec3.dot]

lemma pitchUp_right :
    (Camera.mkVec ⟨0, 0, 0⟩ ⟨0, 1, 0⟩ YAW 90).Right = Vec3.zero := by
  rw [mkVec_right, pitchUp_front]
  have hcr : Vec3.cross ⟨0, 1, 0⟩ ⟨0, 1, 0⟩ = Vec3.zero := by
    simp [Vec3.cross, Vec3.zero]
  rw [hcr, Vec3.normalize_zero]

/-! Claim theorems. -/

/-- Claim C1, amended: every camera state reachable through
construction or the input methods keeps Front, Right, Up equal to the
recomputation from the current yaw, pitch and WorldUp (never stale),
and whenever the cross product of Front with WorldUp is nonzero the
three vectors are mutually orthogonal unit vectors.  The original
claim, without the nonzero-cross-product proviso, fails because the
constructor accepts pitch = 90 with WorldUp = +Y. -/
theorem reachable_basis_orthonormal (c : Camera) (h : Reachable c) :
    basisDerived c ∧
    (Vec3.cross c.Front c.WorldUp ≠ Vec3.zero → isOrthonormalBasis c) := by
  have hb := reachable_basisDerived c h
  exact ⟨hb, fun hc => basisDerived_orthonormal c hb hc⟩

/-- Witness for C1 at the default camera, whose cross product is (1,0,0). -/
theorem reachable_basis_orthonormal_witness : isOrthonormalBasis defaultCamera := by
  have hcr : Vec3.cross defaultCamera.Front defaultCamera.WorldUp ≠ Vec3.zero := by
    rw [defaultCamera_cross]
    intro hzero
    have hx := congrArg Vec3.x hzero
    simp [Vec3.zero] at hx
  exact (reachable_basis_orthonormal defaultCamera
    (Reachable.ctorVec ⟨0, 0, 0⟩ ⟨0, 1, 0⟩ YAW PITCH)).2 hcr

/-- Counterexample to C1 as stated: the camera constructed with default
position and world-up but pitch = 90 is reachable, yet its Right vector
is the zero vector, so the basis is not made of unit vectors. -/
theorem reachable_basis_orthonormal_counterexample :
    Reachable (Camera.mkVec ⟨0, 0, 0⟩ ⟨0, 1, 0⟩ YAW 90) ∧
    ¬ isOrthonormalBasis (Camera.mkVec ⟨0, 0, 0⟩ ⟨0, 1, 0⟩ YAW 90) := by
  refine ⟨Reachable.ctorVec _ _ _ _, fun h => ?_⟩
  have hr := h.2.1
  rw [pitchUp_right] at hr
  simp [Vec3.dot, Vec3.zero] at hr

/-- Claim C2: ProcessMouseMovement with constrainPitch = true scales the
offsets by the mouse sensitivity, adds them to yaw and pitch, and clamps
pitch to [-89, 89] after the addition, so pitch never leaves [-89, 89]. -/
theorem processMouseMovement_constrainPitch (c : Camera) (xo yo : ℝ) :
    (-89 : ℝ) ≤ (ProcessMouseMovement c xo yo true).EulerAngles.Pitch ∧
    (ProcessMouseMovement c xo yo true).EulerAngles.Pitch ≤ 89 ∧
    (ProcessMouseMovement c xo yo true).EulerAngles.Yaw
      = c.EulerAngles.Yaw + xo * c.MouseSensitivity ∧
    (ProcessMouseMovement c xo yo true).EulerAngles.Pitch
      = max (-89) (min 89 (c.EulerAngles.Pitch + yo * c.MouseSensitivity)) := by
  have hYaw : (ProcessMouseMovement c xo yo true).EulerAngles.Yaw
      = c.EulerAngles.Yaw + xo * c.MouseSensitivity := rfl
  have hPitch : (ProcessMouseMovement c xo yo true).EulerAngles.Pitch
      = (if (if c.EulerAngles.Pitch + yo * c.MouseSensitivity > 89 then (89 : ℝ)
             else c.EulerAngles.Pitch + yo * c.MouseSensitivity) < -89 then (-89 : ℝ)
         else if c.EulerAngles.Pitch + yo * c.MouseSensitivity > 89 then (89 : ℝ)
             else c.EulerAngles.Pitch + yo * c.MouseSensitivity) := rfl
  rw [hPitch, hYaw]
  refine ⟨?_, ?_, rfl, ?_⟩ <;>
    (try simp only [max_def, min_def]) <;> split_ifs <;> linarith

/-- Claim C3: ProcessMouseScroll sets zoom to the previous zoom minus
yoffset saturated into [1, 45], so zoom never leaves [1, 45]. -/
theorem processMouseScroll_clamps (c : Camera) (yo : ℝ) :
    (ProcessMouseScroll c yo).Zoom = min 45 (max 1 (c.Zoom - yo)) ∧
    (1 : ℝ) ≤ (ProcessMouseScroll c yo).Zoom ∧
    (ProcessMouseScroll c yo).Zoom ≤ 45 := by
  have hz : (ProcessMouseScroll c yo).Zoom
      = (if (if c.Zoom - yo < 1 then (1 : ℝ) else c.Zoom - yo) > 45 then (45 : ℝ)
         else if c.Zoom - yo < 1 then (1 : ℝ) else c.Zoom - yo) := rfl
  rw [hz]
  refine ⟨?_, ?_, ?_⟩ <;> (try simp only [max_def, min_def]) <;> split_ifs <;> linarith

/-- Claim C4: the recomputation sets Front to the normalization of the
trigonometric tuple of yaw and pitch, then Right to the normalized
cross of the new Front with WorldUp, then Up to the normalized cross
of the new Right with the new Front (Right before Up). -/
theorem updateCameraVectors_formula (c : Camera) :
    (updateCameraVectors c).Front =
      Vec3.normalize
        ⟨Real.cos (radians c.EulerAngles.Yaw) * Real.cos (radians c.EulerAngles.Pitch),
         Real.sin (radians c.EulerAngles.Pitch),
         Real.sin (radians c.EulerAngles.Yaw) * Real.cos (radians c.EulerAngles.Pitch)⟩ ∧
    (updateCameraVectors c).Right =
      Vec3.normalize (Vec3.cross (updateCameraVectors c).Front c.WorldUp) ∧
    (updateCameraVectors c).Up =
      Vec3.normalize (Vec3.cross (updateCameraVectors c).Right (updateCameraVectors c).Front) :=
  ⟨rfl, rfl, rfl⟩

/-- Claim C5: ProcessKeyboard translates Position by plus Front, minus
Front, minus Right, plus Right for FORWARD, BACKWARD, LEFT, RIGHT, each
scaled by MovementSpeed * deltaTime. -/
theorem processKeyboard_translation (c : Camera) (dt : ℝ) :
    (ProcessKeyboard c Camera_Movement.FORWARD dt).Position
      = Vec3.add c.Position (Vec3.smul (c.MovementSpeed * dt) c.Front) ∧
    (ProcessKeyboard c Camera_Movement.BACKWARD dt).Position
      = Vec3.sub c.Position (Vec3.smul (c.MovementSpeed * dt) c.Front) ∧
    (ProcessKeyboard c Camera_Movement.LEFT dt).Position
      = Vec3.sub c.Position (Vec3.smul (c.MovementSpeed * dt) c.Right) ∧
    (ProcessKeyboard c Camera_Movement.RIGHT dt).Position
      = Vec3.add c.Position (Vec3.smul (c.MovementSpeed * dt) c.Right) :=
  ⟨rfl, rfl, rfl, rfl⟩

/-- Claim C6: moving FORWARD then BACKWARD with the same deltaTime and
no orientation change in between returns Position to its original
value. -/
theorem processKeyboard_roundTrip (c : Camera) (dt : ℝ) :
    (ProcessKeyboard (ProcessKeyboard c Camera_Movement.FORWARD dt)
        Camera_Movement.BACKWARD dt).Position = c.Position := by
  show Vec3.sub (Vec3.add c.Position (Vec3.smul (c.MovementSpeed * dt) c.Front))
      (Vec3.smul (c.MovementSpeed * dt) c.Front) = c.Position
  ext <;> simp [Vec3.add, Vec3.sub, Vec3.smul]

/-- Claim C7: construction with all defaults yields position (0,0,0),
world-up (0,1,0), yaw -90, pitch 0, speed 2.5, sensitivity 0.1, zoom
45, and front (0,0,-1) after the immediate recomputation. -/
theorem defaultCamera_defaults :
    defaultCamera.Position = ⟨0, 0, 0⟩ ∧
    defaultCamera.WorldUp = ⟨0, 1, 0⟩ ∧
    defaultCamera.EulerAngles.Yaw = -90 ∧
    defaultCamera.EulerAngles.Pitch = 0 ∧
    defaultCamera.MovementSpeed = 2.5 ∧
    defaultCamera.MouseSensitivity = 0.1 ∧
    defaultCamera.Zoom = 45 ∧
    defaultCamera.Front = ⟨0, 0, -1⟩ :=
  ⟨rfl, rfl, rfl, rfl, rfl, rfl, rfl, defaultCamera_front⟩

/-- Claim C8: ProcessKeyboard changes only Position: yaw, pitch, the
three basis vectors, WorldUp and the three scalar options all keep
their values, and no basis recomputation occurs. -/
theorem processKeyboard_onlyPosition (c : Camera) (d : Camera_Movement) (dt : ℝ) :
    (ProcessKeyboard c d dt).EulerAngles.Yaw = c.EulerAngles.Yaw ∧
    (ProcessKeyboard c d dt).EulerAngles.Pitch = c.EulerAngles.Pitch ∧
    (ProcessKeyboard c d dt).Front = c.Front ∧
    (ProcessKeyboard c d dt).Right = c.Right ∧
    (ProcessKeyboard c d dt).Up = c.Up ∧
    (ProcessKeyboard c d dt).WorldUp = c.WorldUp ∧
    (ProcessKeyboard c d dt).MovementSpeed = c.MovementSpeed ∧
    (ProcessKeyboard c d dt).MouseSensitivity = c.MouseSensitivity ∧
    (ProcessKeyboard c d dt).Zoom = c.Zoom := by
  cases d <;> exact ⟨rfl, rfl, rfl, rfl, rfl, rfl, rfl, rfl, rfl⟩

/-- Claim C9: ProcessMouseMovement with constrainPitch = false applies
no clamp: pitch becomes exactly the previous pitch plus
yoffset * sensitivity (and may leave [-89, 89], as the concrete
instance with yoffset 10000 shows), yaw gains xoffset * sensitivity,
and the basis is recomputed from the resulting angles. -/
theorem processMouseMovement_unconstrained (c : Camera) (xo yo : ℝ) :
    ((ProcessMouseMovement c xo yo false).EulerAngles.Pitch
        = c.EulerAngles.Pitch + yo * c.MouseSensitivity ∧
      (ProcessMouseMovement c xo yo false).EulerAngles.Yaw
        = c.EulerAngles.Yaw + xo * c.MouseSensitivity ∧
      basisDerived (ProcessMouseMovement c xo yo false)) ∧
    (89 : ℝ) < (ProcessMouseMovement defaultCamera 0 10000 false).EulerAngles.Pitch := by
  refine ⟨⟨rfl, rfl, updateCameraVectors_basisDerived _⟩, ?_⟩
  have hp : (ProcessMouseMovement defaultCamera 0 10000 false).EulerAngles.Pitch
      = PITCH + 10000 * SENSITIVITY := rfl
  rw [hp]
  norm_num [PITCH, SENSITIVITY]

/-- Claim C10: both constructors store yaw and pitch exactly as given
with no clamping (so pitch 90 with +Y world-up makes Front equal to
WorldUp and the derived cross product degenerate to zero), and both
always set speed 2.5, sensitivity 0.1 and zoom 45. -/
theorem constructors_store_exact (p u : Vec3) (px py pz ux uy uz yaw pitch : ℝ) :
    (Camera.mkVec p u yaw pitch).EulerAngles.Yaw = yaw ∧
    (Camera.mkVec p u yaw pitch).EulerAngles.Pitch = pitch ∧
    (Camera.mkVec p u yaw pitch).MovementSpeed = 2.5 ∧
    (Camera.mkVec p u yaw pitch).MouseSensitivity = 0.1 ∧
    (Camera.mkVec p u yaw pitch).Zoom = 45 ∧
    (Camera.mkScalar px py pz ux uy uz yaw pitch).EulerAngles.Yaw = yaw ∧
    (Camera.mkScalar px py pz ux uy uz yaw pitch).EulerAngles.Pitch = pitch ∧
    (Camera.mkScalar px py pz ux uy uz yaw pitch).MovementSpeed = 2.5 ∧
    (Camera.mkScalar px py pz ux uy uz yaw pitch).MouseSensitivity = 0.1 ∧
    (Camera.mkScalar px py pz ux uy uz yaw pitch).Zoom = 45 ∧
    (Camera.mkVec ⟨0, 0, 0⟩ ⟨0, 1, 0⟩ YAW 90).Front
      = (Camera.mkVec ⟨0, 0, 0⟩ ⟨0, 1, 0⟩ YAW 90).WorldUp ∧
    Vec3.cross (Camera.mkVec ⟨0, 0, 0⟩ ⟨0, 1, 0⟩ YAW 90).Front
      (Camera.mkVec ⟨0, 0, 0⟩ ⟨0, 1, 0⟩ YAW 90).WorldUp = Vec3.zero := by
  refine ⟨rfl, rfl, rfl, rfl, rfl, rfl, rfl, rfl, rfl, rfl, ?_, ?_⟩
  · rw [pitchUp_front]; rfl
  · rw [pitchUp_front]
    show Vec3.cross ⟨0, 1, 0⟩ ⟨0, 1, 0⟩ = Vec3.zero
    simp [Vec3.cross, Vec3.zero]
